import Mathlib

/-!
Verification of the serial-to-TCP bridge (`py_tcp_bridge.py`) and the parts of the
`twseia` package under `src/twseia/__init__.py` against its natural-language
specification.  Python strings are embedded as `List Char`, byte sequences as
`List Nat`, and fallible Python code as `Except`-valued functions; functions whose
defining module is not part of the inspected sources are modelled from the spec and
say so in their doc comment.
-/

namespace PyTaiseia

/-! ## Embedding of the Python string operations used by the bridge -/

/-- Python `str.lower()` on an embedded string. -/
def pyLower (l : List Char) : List Char := l.map Char.toLower

/-- Python `data.decode('utf-8').replace('\r', '').replace('\n', '')`:
every carriage return and newline anywhere in the text is removed. -/
def stripCRLF (l : List Char) : List Char :=
  l.filter (fun c => ¬ (c = '\r' ∨ c = '\n'))

/-- Python `str.split(',')`.  Splitting the empty string yields `[""]`,
and every comma separates two (possibly empty) components. -/
def pySplit : List Char → List (List Char)
  | [] => [[]]
  | c :: rest =>
    if c = ',' then [] :: pySplit rest
    else
      match pySplit rest with
      | [] => [[c]]
      | t :: ts => (c :: t) :: ts

/-- Leading and trailing blanks removed, as Python `int()` tolerates around digits. -/
def stripSp (l : List Char) : List Char :=
  ((l.dropWhile (fun c => c = ' ')).reverse.dropWhile (fun c => c = ' ')).reverse

/-- The decimal digit characters. -/
def decDigits : List Char := ['0', '1', '2', '3', '4', '5', '6', '7', '8', '9']

/-- The hexadecimal digit characters, both cases. -/
def hexDigits : List Char :=
  decDigits ++ ['a', 'b', 'c', 'd', 'e', 'f', 'A', 'B', 'C', 'D', 'E', 'F']

/-- Numeric value of one decimal digit character. -/
def decDigitVal (c : Char) : Nat := c.toNat - '0'.toNat

/-- Numeric value of one hexadecimal digit character. -/
def hexDigitVal (c : Char) : Nat :=
  if c.isDigit then c.toNat - '0'.toNat
  else if 'a' ≤ c then c.toNat - 'a'.toNat + 10
  else c.toNat - 'A'.toNat + 10

/-- Value of a string of decimal digits. -/
def decVal (l : List Char) : Nat := l.foldl (fun a c => a * 10 + decDigitVal c) 0

/-- Value of a string of hexadecimal digits. -/
def hexVal (l : List Char) : Nat := l.foldl (fun a c => a * 16 + hexDigitVal c) 0

/-- Python `int(s)` for the non-negative decimal literals the bridge deals in:
blanks may surround the digits, at least one digit is required.
(Signs and underscores, which the bridge never sends to `bytearray`
successfully anyway, are left out of the embedding.) -/
def pyIntDec (l : List Char) : Option Nat :=
  let t := stripSp l
  if t ≠ [] ∧ t.all (fun c => c ∈ decDigits) then some (decVal t) else none

/-- Python `int(s, 16)` drops one optional `0x` / `0X` marker. -/
def dropHexMarker : List Char → List Char
  | '0' :: 'x' :: rest => rest
  | '0' :: 'X' :: rest => rest
  | l => l

/-- Python `int(s, 16)` for non-negative hexadecimal literals: blanks may surround
the literal, one optional `0x`/`0X` marker, then at least one hex digit. -/
def pyIntHex (l : List Char) : Option Nat :=
  let t := dropHexMarker (stripSp l)
  if t ≠ [] ∧ t.all (fun c => c ∈ hexDigits) then some (hexVal t) else none

/-- Python `txt_cmd.find('0x') == 0`: the whole line starts with `0x`. -/
def startsWith0x : List Char → Bool
  | '0' :: 'x' :: _ => true
  | _ => false

/-! ## The twseia package (`src/twseia/__init__.py` plus spec-modelled missing modules) -/

/-- The Python exceptions the embedded code can raise. -/
inductive PyExc where
  | typeError
  | valueError
  | notImplementedError
  | malformedStatesBlock
deriving DecidableEq, Repr

/-- One decoded service reading, the dict
`{'description': ..., 'value': ..., 'unit'?: ...}` built by the all-states parser. -/
structure StateReport where
  description : String
  value : Nat
  unit : Option String
deriving DecidableEq, Repr

/-- Modelled from the spec: the numeric values of `SATypeIDEnum.DEHUMIDIFIER` live in
`twseia.constants`, which is not under src/; an arbitrary distinct code is used. -/
def DEHUMIDIFIER : Nat := 4

/-- Modelled from the spec: the numeric value of `SATypeIDEnum.AIR_CONDITIONER` lives in
`twseia.constants`, which is not under src/; an arbitrary distinct code is used. -/
def AIR_CONDITIONER : Nat := 1

/-- Modelled from the spec: the service code `SARegisterServiceIDEnum.REGISTRATION`
lives in `twseia.constants`, which is not under src/. -/
def REGISTRATION : Nat := 0

/-- Modelled from the spec: the service code
`SARegisterServiceIDEnum.READ_CURRENT_SERVICES_STATES` lives in `twseia.constants`,
which is not under src/. -/
def READ_CURRENT_SERVICES_STATES : Nat := 8

/-- Modelled from the spec: `SAInfoRequestPacket.create(...).to_pdu()` lives in
`twseia.packets`, which is not under src/.  Per the spec the codec prepends the total
length and the service id and appends a trailer; the trailer algorithm is an open
question of the spec and is modelled as the xor of the preceding bytes. -/
def SAInfoRequestPacket_to_pdu (sa_info_type : Nat) : List Nat :=
  let body := [3, sa_info_type]
  body ++ [body.foldl Nat.xor 0]

/-- `create_sa_register_cmd` from `src/twseia/__init__.py`. -/
def create_sa_register_cmd : List Nat :=
  SAInfoRequestPacket_to_pdu REGISTRATION

/-- `create_read_all_states_cmd` from `src/twseia/__init__.py`. -/
def create_read_all_states_cmd : List Nat :=
  SAInfoRequestPacket_to_pdu READ_CURRENT_SERVICES_STATES

/-- The fields of `SAInfoResponsePacket` read by the parsers in src. -/
structure SAInfoResponsePacket where
  service_id : Nat
  data_bytes : List Nat
deriving DecidableEq, Repr

/-- Modelled from the spec: `SAInfoResponsePacket.from_pdu` lives in `twseia.packets`,
which is not under src/.  Per the spec the PDU envelope is the total length byte, the
service id, the payload and a trailer byte; decoding strips the envelope, so
`data_bytes` is the PDU without its first two bytes and its last byte. -/
def SAInfoResponsePacket_from_pdu (pdu : List Nat) : SAInfoResponsePacket :=
  { service_id := pdu.getD 1 0, data_bytes := (pdu.drop 2).dropLast }

/-- Modelled from the spec: `Dehumidifier.convert_dev_specific_service` lives in
`twseia.dehumidifier`, which is not under src/.  Per the spec a service record is
exactly 3 bytes — the service id then a big-endian raw value — and a record that is
not 3 bytes fails `MalformedStatesBlock`; the scale and enumeration tables are also
not under src/, so the raw value is reported unscaled and without a unit.  The
embedding returns the state report the caller in src builds from the service. -/
def Dehumidifier_convert_dev_specific_service (pdu : List Nat) : Except PyExc StateReport :=
  match pdu with
  | [sid, hi, lo] =>
    .ok { description := "dehumidifier_service_" ++ toString sid
          value := hi * 256 + lo
          unit := none }
  | _ => .error .malformedStatesBlock

/-- Modelled from the spec: `AirConditioner.convert_dev_specific_service` lives in
`twseia.air_conditioner`, which is not under src/; modelled exactly like the
dehumidifier converter. -/
def AirConditioner_convert_dev_specific_service (pdu : List Nat) : Except PyExc StateReport :=
  match pdu with
  | [sid, hi, lo] =>
    .ok { description := "air_conditioner_service_" ++ toString sid
          value := hi * 256 + lo
          unit := none }
  | _ => .error .malformedStatesBlock

/-- The `while n < len(data_bytes)` loop of
`parsing_dehumidifier_all_states_response`: walk the payload in 3-byte slices
(`data_bytes[n:n+3]`), convert each slice with the device converter, and collect the
reports in record order; an exception from the converter propagates. -/
def statesLoop (conv : List Nat → Except PyExc StateReport) :
    List Nat → Except PyExc (List StateReport)
  | [] => .ok []
  | x :: rest =>
    match conv ((x :: rest).take 3) with
    | .error e => .error e
    | .ok s =>
      match statesLoop conv ((x :: rest).drop 3) with
      | .error e => .error e
      | .ok rs => .ok (s :: rs)
termination_by l => l.length
decreasing_by
  simp [List.drop]
  omega

/-- `parsing_dehumidifier_all_states_response` from `src/twseia/__init__.py`
(with `is_fixed_len_pdu` left at its default `True`): decode the PDU into a packet
and walk `packet.data_bytes` in 3-byte records. -/
def parsing_dehumidifier_all_states_response (pdu : List Nat) :
    Except PyExc (List StateReport) :=
  statesLoop Dehumidifier_convert_dev_specific_service
    (SAInfoResponsePacket_from_pdu pdu).data_bytes

/-- Modelled from the spec: `parsing_sa_all_states_response` is called by
`py_tcp_bridge` but is not defined under src/.  Modelled after the src dispatcher
`parsing_read_state_response`, which branches on the device type id, supports the
dehumidifier and the air conditioner, and raises `NotImplementedError` for anything
else — including a type id that is `None`. -/
def parsing_sa_all_states_response (sa_type_id : Option Nat) (pdu : List Nat) :
    Except PyExc (List StateReport) :=
  if sa_type_id = some DEHUMIDIFIER then
    parsing_dehumidifier_all_states_response pdu
  else if sa_type_id = some AIR_CONDITIONER then
    statesLoop AirConditioner_convert_dev_specific_service
      (SAInfoResponsePacket_from_pdu pdu).data_bytes
  else .error .notImplementedError

/-! ## The bridge (`src/py_tcp_bridge.py`) -/

/-- The mutable state of the `SerialToNet` protocol object: whether a client socket
is attached (`self.socket is not None`), the frame accumulation buffer, the pending
command last dispatched (`self.cmd_sent`), and the device type id (`self.sa_type_id`). -/
structure SerialToNet where
  socket : Bool
  buffer : List Nat
  cmd_sent : Option String
  sa_type_id : Option Nat
deriving DecidableEq, Repr

/-- `SerialToNet.__init__`: no socket, empty buffer, no pending command, and —
notably — `sa_type_id = None`. -/
def initialSerToNet : SerialToNet :=
  { socket := false, buffer := [], cmd_sent := none, sa_type_id := none }

/-- Line 228 of `py_tcp_bridge.py`: `ser_to_net.socket = client_socket` on connect.
Nothing else about the protocol object is set there; in particular `sa_type_id`
is untouched. -/
def onClientConnect (s : SerialToNet) : SerialToNet :=
  { s with socket := true }

/-- The payload `data_received` sends to the client when a frame completes,
by the branch on `self.cmd_sent`. -/
inductive Reply where
  | registerJson (pdu : List Nat)
  | statesReport (reports : List StateReport)
  | rawText (txt : String)
deriving Repr

/-- One completed frame together with the client-facing payload sent for it. -/
structure Emission where
  frame : List Nat
  reply : Reply
deriving Repr

/-- What one `data_received` call produces on frame completion: a reply computed
and sent successfully (only then do lines 47-48 clear the buffer and the pending
command), or a Python exception raised by the reply computation, which propagates
out of `data_received` before those lines run. -/
inductive RxEvent where
  | emit (e : Emission)
  | raised (exc : PyExc)
deriving Repr

/-- The `', '.join([f'{n}' for n in self.buffer]) + '\n'` default reply text. -/
def formatRawResponse (buffer : List Nat) : String :=
  String.intercalate ", " (buffer.map toString) ++ "\n"

/-- The reply computation of lines 38-45: `register` frames through
`parsing_sa_register_response(...).to_json()` — that parser lives outside src/ and
is modelled as succeeding, the reply carrying the PDU it is applied to — `states`
frames through `parsing_sa_all_states_response` with the session's `sa_type_id`,
which can raise, and anything else through the comma-separated decimal join,
which always succeeds. -/
def computeReply (s : SerialToNet) (buffer : List Nat) : Except PyExc Reply :=
  if s.cmd_sent = some "register" then .ok (.registerJson buffer)
  else if s.cmd_sent = some "states" then
    match parsing_sa_all_states_response s.sa_type_id buffer with
    | .error e => .error e
    | .ok r => .ok (.statesReport r)
  else .ok (.rawText (formatRawResponse buffer))

/-- `SerialToNet.data_received`: with no socket attached, nothing happens at all;
otherwise the chunk is appended to the buffer, and when
`0 < len(self.buffer) == self.buffer[0]` — i.e. the buffer is nonempty and its first
byte equals its length — the reply is computed and sent; only if that does not
raise do lines 47-48 clear the buffer and reset the pending command, while a raise
propagates with the appended buffer kept and the pending command still set. -/
def data_received (s : SerialToNet) (data_bytes : List Nat) : SerialToNet × Option RxEvent :=
  if s.socket then
    let buffer := s.buffer ++ data_bytes
    if buffer.head? = some buffer.length then
      match computeReply s buffer with
      | .error e => ({ s with buffer := buffer }, some (.raised e))
      | .ok rep => ({ s with buffer := [], cmd_sent := none }, some (.emit ⟨buffer, rep⟩))
    else
      ({ s with buffer := buffer }, none)
  else (s, none)

/-- A sequence of `data_received` calls, collecting every event in order. -/
def processChunks (s : SerialToNet) : List (List Nat) → SerialToNet × List RxEvent
  | [] => (s, [])
  | c :: cs =>
    match data_received s c with
    | (s1, e) =>
      match processChunks s1 cs with
      | (s2, es) => (s2, e.toList ++ es)

/-- The outcome of one iteration of the network loop on one client line. -/
inductive Action where
  | closeSession
  | serialWrite (bs : List Nat)
  | pyError (e : PyExc)
deriving DecidableEq, Repr

/-- Lines 238–258 of `py_tcp_bridge.py`, one iteration of the network loop on the
received text: carriage returns and newlines are removed, the text split on commas;
`exit` (whole line, case-insensitive) ends the session; a first token of `register`
or `states` (case-insensitive) marks the pending command and writes the encoded
request to serial; otherwise a line of exactly six tokens marks `bytearray` and
writes the six integers (base 16 when the whole line starts with `0x`, else base 10;
a token that fails to parse, or a value not fitting a byte, raises `ValueError`);
anything else reaches `bytearray(f'cmd {txt_cmd} not support.')`, which raises
`TypeError` because `bytearray` is applied to a `str` without an encoding. -/
def handle_client_text (s : SerialToNet) (data : List Char) : SerialToNet × Action :=
  let txt_cmd := stripCRLF data
  let txt_args := pySplit txt_cmd
  if pyLower txt_cmd = "exit".toList then (s, .closeSession)
  else if pyLower (txt_args.headD []) = "register".toList then
    ({ s with cmd_sent := some "register" }, .serialWrite create_sa_register_cmd)
  else if pyLower (txt_args.headD []) = "states".toList then
    ({ s with cmd_sent := some "states" }, .serialWrite create_read_all_states_cmd)
  else if txt_args.length = 6 then
    let s1 : SerialToNet := { s with cmd_sent := some "bytearray" }
    match (if startsWith0x txt_cmd then txt_args.mapM pyIntHex else txt_args.mapM pyIntDec) with
    | none => (s1, .pyError .valueError)
    | some vs =>
      if vs.all (fun v => v < 256) then (s1, .serialWrite vs)
      else (s1, .pyError .valueError)
  else (s, .pyError .typeError)

/-- A `SerialToNet` with a client attached and an empty buffer, as right after the
first client connects. -/
def attachedInit : SerialToNet := onClientConnect initialSerToNet

/-! ## Helper lemmas about the frame assembler -/

theorem data_received_detached (s : SerialToNet) (c : List Nat) (h : s.socket = false) :
    data_received s c = (s, none) := by
  simp [data_received, h]

theorem data_received_acc (s : SerialToNet) (c : List Nat) (h : s.socket = true)
    (hc : ¬ (s.buffer ++ c).head? = some (s.buffer ++ c).length) :
    data_received s c = ({ s with buffer := s.buffer ++ c }, none) := by
  simp only [data_received, h, if_true]
  rw [if_neg hc]

theorem processChunks_cons (s : SerialToNet) (c : List Nat) (cs : List (List Nat)) :
    processChunks s (c :: cs) =
      ((processChunks (data_received s c).1 cs).1,
       (data_received s c).2.toList ++ (processChunks (data_received s c).1 cs).2) := by
  rw [processChunks]

theorem processChunks_detached (cs : List (List Nat)) : ∀ (s : SerialToNet),
    s.socket = false → processChunks s cs = (s, []) := by
  induction cs with
  | nil => intro s _; rfl
  | cons c cs ih =>
    intro s h
    rw [processChunks_cons, data_received_detached s c h, ih s h]
    rfl

/-! ## The claims -/

/-- C10: with no client socket attached, `data_received` changes nothing — buffer
and pending command keep their values and nothing is emitted — for every input
chunk, and likewise across an arbitrary sequence of calls: bytes arriving between
client connections are discarded entirely and can never surface in a later frame. -/
theorem C10_detached_discards (s : SerialToNet) (c : List Nat) (cs : List (List Nat))
    (h : s.socket = false) :
    data_received s c = (s, none) ∧ processChunks s cs = (s, []) :=
  ⟨data_received_detached s c h, processChunks_detached cs s h⟩

theorem C10_detached_discards_witness :
    data_received initialSerToNet [1, 2, 3] = (initialSerToNet, none) ∧
    processChunks initialSerToNet [[9], [9, 9]] = (initialSerToNet, []) :=
  C10_detached_discards initialSerToNet [1, 2, 3] [[9], [9, 9]] rfl

/-- C5: on the line `foo` — neither a keyword nor six tokens — the claim says the
session immediately replies `cmd foo not support.` with no serial write; the code
instead evaluates `bytearray(f'cmd {txt_cmd} not support.')`, and `bytearray`
applied to a `str` without an encoding raises `TypeError`, so no reply is ever
sent (and no serial write happens either). -/
theorem C5_not_support_raises :
    handle_client_text attachedInit ("foo".toList) =
      (attachedInit, .pyError .typeError) := rfl

/-- C1: dispatching the line `states` does set the pending command and write the
encoded read-all-states request to serial, but `__main__` never assigns the parsed
`SA_TYPE_ID` argument to `ser_to_net.sa_type_id`, which `SerialToNet.__init__`
leaves at `None`; when the matching frame completes, the all-states parser
therefore runs with type id `None` and raises `NotImplementedError` instead of
decoding the states for the session's device type — and the raise propagates
before lines 47-48 run, so nothing is sent and the buffer keeps the frame. -/
theorem C1_states_type_id_never_set :
    (handle_client_text attachedInit ("states".toList)).2 =
      .serialWrite create_read_all_states_cmd ∧
    (handle_client_text attachedInit ("states".toList)).1.cmd_sent = some "states" ∧
    (handle_client_text attachedInit ("states".toList)).1.sa_type_id = none ∧
    (data_received (handle_client_text attachedInit ("states".toList)).1
        [6, 4, 1, 0, 0, 2]) =
      ({ (handle_client_text attachedInit ("states".toList)).1 with
          buffer := [6, 4, 1, 0, 0, 2] },
       some (.raised .notImplementedError)) :=
  ⟨rfl, rfl, rfl, rfl⟩

/-- C3 counterexample: after a leading byte of 0 the assembler raises nothing —
no `ZeroLengthHeader` exists anywhere in the code — and it silently keeps
accumulating: three calls grow the buffer to `[0, 7, 9]` with no emission. -/
theorem C3_counterexample :
    processChunks attachedInit [[0], [7], [9]] =
      ({ attachedInit with buffer := [0, 7, 9] }, []) := rfl

theorem processChunks_zero_head (chunks : List (List Nat)) : ∀ (s : SerialToNet),
    s.socket = true → (s.buffer ++ chunks.flatten).head? = some 0 →
    (processChunks s chunks).2 = [] ∧
    (processChunks s chunks).1.buffer = s.buffer ++ chunks.flatten := by
  induction chunks with
  | nil => intro s _ _; simpa using ⟨rfl, rfl⟩
  | cons c cs ih =>
    intro s hs h0
    have hpre : s.buffer ++ (c :: cs).flatten = (s.buffer ++ c) ++ cs.flatten := by
      rw [List.flatten_cons, List.append_assoc]
    have hnemit : ¬ (s.buffer ++ c).head? = some (s.buffer ++ c).length := by
      intro heq
      rcases hsc : s.buffer ++ c with _ | ⟨b0, rest⟩
      · rw [hsc] at heq
        simp at heq
      · have hb0 : b0 = 0 := by
          rw [hpre, hsc] at h0
          simpa using h0
        rw [hsc, hb0] at heq
        simp at heq
    rw [processChunks_cons, data_received_acc s c hs hnemit]
    have h0' : ((s.buffer ++ c) ++ cs.flatten).head? = some 0 := by
      rw [← hpre]; exact h0
    have hrec := ih { s with buffer := s.buffer ++ c } hs h0'
    refine ⟨by simpa using hrec.1, ?_⟩
    have hb2 := hrec.2
    simp only at hb2 ⊢
    rw [hb2, hpre]

/-- C3 amended: for every byte stream whose first byte is 0, fed in any chunking
to the assembler from an empty buffer with a client attached, no frame is ever
emitted and no error is raised — the code has no `ZeroLengthHeader` — and the
assembler silently accumulates the entire stream in its buffer. -/
theorem C3_zero_header_accumulates (chunks : List (List Nat)) (s : SerialToNet)
    (hs : s.socket = true) (hb : s.buffer = [])
    (h0 : chunks.flatten.head? = some 0) :
    (processChunks s chunks).2 = [] ∧
    (processChunks s chunks).1.buffer = chunks.flatten := by
  have := processChunks_zero_head chunks s hs (by rw [hb]; simpa using h0)
  rw [hb] at this
  simpa using this

theorem C3_zero_header_accumulates_witness :
    (processChunks attachedInit [[0], [7]]).2 = [] ∧
    (processChunks attachedInit [[0], [7]]).1.buffer = [[0], [7]].flatten :=
  C3_zero_header_accumulates [[0], [7]] attachedInit rfl rfl (by decide)

set_option maxRecDepth 10000 in
/-- C4 counterexample: the assembler has no size cap and no `FrameTooLarge`: a
single 300-byte chunk whose declared length byte is 3 is accepted whole, the
buffer reaching 300 bytes — far beyond any one-byte-length frame — with no
emission and no error. -/
theorem C4_counterexample :
    (processChunks attachedInit [3 :: List.replicate 299 1]).1.buffer.length = 300 ∧
    (processChunks attachedInit [3 :: List.replicate 299 1]).2 = [] := by
  constructor <;> rfl

/-- C4 amended: the assembler caps nothing: for every `n` there is a single input
chunk after which the internal buffer holds `n + 4` bytes — exceeding any fixed
maximum frame size — while no error is raised and no frame is emitted. -/
theorem C4_no_cap (n : Nat) :
    (processChunks attachedInit [3 :: 0 :: 0 :: 0 :: List.replicate n 1]).1.buffer.length
      = n + 4 ∧
    (processChunks attachedInit [3 :: 0 :: 0 :: 0 :: List.replicate n 1]).2 = [] := by
  have hne : ¬ (attachedInit.buffer ++ (3 :: 0 :: 0 :: 0 :: List.replicate n 1)).head? =
      some (attachedInit.buffer ++ (3 :: 0 :: 0 :: 0 :: List.replicate n 1)).length := by
    show ¬ ((3 : Nat) :: 0 :: 0 :: 0 :: List.replicate n 1).head? =
      some ((3 : Nat) :: 0 :: 0 :: 0 :: List.replicate n 1).length
    intro h
    rw [List.head?_cons, List.length_cons, List.length_cons, List.length_cons,
      List.length_cons, List.length_replicate] at h
    have h3 := Option.some.inj h
    omega
  rw [processChunks_cons, data_received_acc attachedInit _ rfl hne]
  refine ⟨?_, rfl⟩
  show ((3 : Nat) :: 0 :: 0 :: 0 :: List.replicate n 1).length = n + 4
  rw [List.length_cons, List.length_cons, List.length_cons, List.length_cons,
    List.length_replicate]

theorem processChunks_desynced (chunks : List (List Nat)) :
    ∀ (s : SerialToNet) (b0 : Nat),
    s.buffer.head? = some b0 → b0 < s.buffer.length →
    (processChunks s chunks).2 = [] ∧
    ∃ t, (processChunks s chunks).1.buffer = s.buffer ++ t := by
  induction chunks with
  | nil => exact fun s b0 _ _ => ⟨rfl, [], by simp [processChunks]⟩
  | cons c cs ih =>
    intro s b0 hh hlt
    by_cases hsock : s.socket = true
    · have hne : s.buffer ≠ [] := by
        intro hnil
        rw [hnil] at hh
        simp at hh
      have hha : (s.buffer ++ c).head? = some b0 := by
        rw [List.head?_append_of_ne_nil s.buffer hne]
        exact hh
      have hnemit : ¬ (s.buffer ++ c).head? = some (s.buffer ++ c).length := by
        intro h
        rw [hha] at h
        have hb := Option.some.inj h
        rw [List.length_append] at hb
        omega
      rw [processChunks_cons, data_received_acc s c hsock hnemit]
      have hlt1 : b0 < ({ s with buffer := s.buffer ++ c } : SerialToNet).buffer.length := by
        show b0 < (s.buffer ++ c).length
        rw [List.length_append]
        omega
      have hrec := ih { s with buffer := s.buffer ++ c } b0 hha hlt1
      refine ⟨by simpa using hrec.1, ?_⟩
      obtain ⟨t, ht⟩ := hrec.2
      refine ⟨c ++ t, ?_⟩
      have ht' : (processChunks { s with buffer := s.buffer ++ c } cs).1.buffer =
          (s.buffer ++ c) ++ t := ht
      show (processChunks { s with buffer := s.buffer ++ c } cs).1.buffer =
        s.buffer ++ (c ++ t)
      rw [ht', List.append_assoc]
    · have hfalse : s.socket = false := by simpa using hsock
      rw [processChunks_cons, data_received_detached s c hfalse]
      have hrec := ih s b0 hh hlt
      exact ⟨by simpa using hrec.1, by simpa using hrec.2⟩

/-- C8: once the buffer is desynchronized — nonempty, its declared length byte
positive and strictly smaller than its length — no sequence of further
`data_received` calls ever emits a frame or shrinks the buffer: every call only
appends, so the mismatch persists until something external clears the buffer. -/
theorem C8_desync_persists (s : SerialToNet) (b0 : Nat) (chunks : List (List Nat))
    (hh : s.buffer.head? = some b0) (_hpos : 0 < b0) (hlt : b0 < s.buffer.length) :
    (processChunks s chunks).2 = [] ∧
    ∃ t, (processChunks s chunks).1.buffer = s.buffer ++ t :=
  processChunks_desynced chunks s b0 hh hlt

theorem C8_desync_persists_witness :
    (processChunks ⟨true, [1, 5], none, none⟩ [[2], [3]]).2 = [] ∧
    ∃ t, (processChunks ⟨true, [1, 5], none, none⟩ [[2], [3]]).1.buffer = [1, 5] ++ t :=
  C8_desync_persists ⟨true, [1, 5], none, none⟩ 1 [[2], [3]] (by decide) (by decide)
    (by decide)

theorem statesLoop_nil (cv : List Nat → Except PyExc StateReport) :
    statesLoop cv [] = .ok [] := by
  rw [statesLoop.eq_def]

theorem statesLoop_cons (cv : List Nat → Except PyExc StateReport)
    (x : Nat) (rest : List Nat) :
    statesLoop cv (x :: rest) =
      match cv ((x :: rest).take 3) with
      | .error e => .error e
      | .ok s =>
        match statesLoop cv ((x :: rest).drop 3) with
        | .error e => .error e
        | .ok rs => .ok (s :: rs) := by
  rw [statesLoop.eq_def]

theorem statesLoop_mod3_aux (n : Nat) : ∀ (l : List Nat), l.length ≤ n →
    l.length % 3 ≠ 0 →
    statesLoop Dehumidifier_convert_dev_specific_service l =
      .error .malformedStatesBlock := by
  induction n with
  | zero =>
    intro l hl h
    have h0 : l.length = 0 := Nat.le_zero.mp hl
    rw [h0] at h
    simp at h
  | succ n ih =>
    intro l hl h
    match l with
    | [] => simp at h
    | [a] =>
      rw [statesLoop_cons]
      rfl
    | [a, b] =>
      rw [statesLoop_cons]
      rfl
    | a :: b :: c :: rest =>
      have hlen : (a :: b :: c :: rest).length = rest.length + 3 := by
        simp only [List.length_cons]
      have hrest3 : rest.length % 3 ≠ 0 := by
        rw [hlen, Nat.add_mod_right] at h
        exact h
      have hle : rest.length ≤ n := by
        rw [hlen] at hl
        omega
      have hrec := ih rest hle hrest3
      rw [statesLoop_cons]
      have ht : (a :: b :: c :: rest).take 3 = [a, b, c] := rfl
      have hd : (a :: b :: c :: rest).drop 3 = rest := rfl
      rw [ht, hd, hrec]
      rfl

/-- C7: the all-states decode rejects every PDU whose payload — the data bytes
left after stripping the envelope — has a length that is not a multiple of 3: the
3-byte record walk hits a trailing record of fewer than 3 bytes and fails with
`MalformedStatesBlock` instead of producing a report for it. -/
theorem C7_malformed_states (pdu : List Nat)
    (h : (SAInfoResponsePacket_from_pdu pdu).data_bytes.length % 3 ≠ 0) :
    parsing_dehumidifier_all_states_response pdu = .error .malformedStatesBlock :=
  statesLoop_mod3_aux (SAInfoResponsePacket_from_pdu pdu).data_bytes.length _ le_rfl h

theorem C7_malformed_states_witness :
    (SAInfoResponsePacket_from_pdu [5, 4, 1, 0, 9]).data_bytes.length % 3 ≠ 0 ∧
    parsing_dehumidifier_all_states_response [5, 4, 1, 0, 9] =
      .error .malformedStatesBlock :=
  ⟨by decide, C7_malformed_states [5, 4, 1, 0, 9] (by decide)⟩

/-! ## Helper lemmas about the embedded string operations -/

theorem pySplit_ne_nil (l : List Char) : pySplit l ≠ [] := by
  cases l with
  | nil => simp [pySplit]
  | cons c rest =>
    simp only [pySplit]
    by_cases hc : c = ','
    · simp [hc]
    · rw [if_neg hc]
      rcases h : pySplit rest with _ | ⟨t, ts⟩
      · simp
      · simp

theorem pySplit_headD_length (l : List Char) : ((pySplit l).headD []).length ≤ l.length := by
  induction l with
  | nil => simp [pySplit]
  | cons c rest ih =>
    simp only [pySplit]
    by_cases hc : c = ','
    · simp [hc]
    · rw [if_neg hc]
      rcases h : pySplit rest with _ | ⟨t, ts⟩
      · exact absurd h (pySplit_ne_nil rest)
      · rw [h] at ih
        simp only [List.headD_cons] at ih ⊢
        simp only [List.length_cons]
        omega

/-- C9: keyword dispatch inspects only the first comma-separated token: every
line whose first token lower-cases to `register` (respectively `states`) is
dispatched as the register (respectively states) command — the pending command is
set and the encoded request written to serial — regardless of any further tokens. -/
theorem C9_first_token_dispatch :
    (∀ (s : SerialToNet) (data : List Char),
      pyLower ((pySplit (stripCRLF data)).headD []) = "register".toList →
      handle_client_text s data =
        ({ s with cmd_sent := some "register" }, .serialWrite create_sa_register_cmd)) ∧
    (∀ (s : SerialToNet) (data : List Char),
      pyLower ((pySplit (stripCRLF data)).headD []) = "states".toList →
      handle_client_text s data =
        ({ s with cmd_sent := some "states" }, .serialWrite create_read_all_states_cmd)) := by
  constructor
  · intro s data hreg
    have hnexit : ¬ pyLower (stripCRLF data) = "exit".toList := by
      intro hexit
      have h1 : (stripCRLF data).length = 4 := by
        have hx := congrArg List.length hexit
        rw [pyLower, List.length_map] at hx
        exact hx.trans (by decide)
      have h2 : ((pySplit (stripCRLF data)).headD []).length = 8 := by
        have hx := congrArg List.length hreg
        rw [pyLower, List.length_map] at hx
        exact hx.trans (by decide)
      have h3 := pySplit_headD_length (stripCRLF data)
      omega
    simp only [handle_client_text]
    rw [if_neg hnexit, if_pos hreg]
  · intro s data hsta
    have hnexit : ¬ pyLower (stripCRLF data) = "exit".toList := by
      intro hexit
      have h1 : (stripCRLF data).length = 4 := by
        have hx := congrArg List.length hexit
        rw [pyLower, List.length_map] at hx
        exact hx.trans (by decide)
      have h2 : ((pySplit (stripCRLF data)).headD []).length = 6 := by
        have hx := congrArg List.length hsta
        rw [pyLower, List.length_map] at hx
        exact hx.trans (by decide)
      have h3 := pySplit_headD_length (stripCRLF data)
      omega
    have hnreg : ¬ pyLower ((pySplit (stripCRLF data)).headD []) = "register".toList := by
      rw [hsta]
      decide
    simp only [handle_client_text]
    rw [if_neg hnexit, if_neg hnreg, if_pos hsta]

theorem C9_first_token_dispatch_witness :
    handle_client_text attachedInit ("register,1,2,3,4,5".toList) =
      ({ attachedInit with cmd_sent := some "register" },
       .serialWrite create_sa_register_cmd) ∧
    handle_client_text attachedInit ("states,x".toList) =
      ({ attachedInit with cmd_sent := some "states" },
       .serialWrite create_read_all_states_cmd) :=
  ⟨C9_first_token_dispatch.1 attachedInit _ (by decide),
   C9_first_token_dispatch.2 attachedInit _ (by decide)⟩

theorem mem_dropWhile_or (p : Char → Bool) (l : List Char) (c : Char) (h : c ∈ l) :
    c ∈ l.dropWhile p ∨ p c = true := by
  induction l with
  | nil => simp at h
  | cons d rest ih =>
    rw [List.dropWhile_cons]
    rcases List.mem_cons.mp h with rfl | hmem
    · by_cases hd : p c = true
      · exact Or.inr hd
      · rw [if_neg hd]
        exact Or.inl (List.mem_cons_self _ _)
    · by_cases hd : p d = true
      · rw [if_pos hd]
        exact ih hmem
      · rw [if_neg hd]
        exact Or.inl (List.mem_cons_of_mem _ hmem)

theorem mem_stripSp_or (l : List Char) (c : Char) (h : c ∈ l) :
    c ∈ stripSp l ∨ c = ' ' := by
  rcases mem_dropWhile_or (fun x => x = ' ') l c h with h1 | h1
  · have h2 : c ∈ (l.dropWhile (fun x => x = ' ')).reverse := List.mem_reverse.mpr h1
    rcases mem_dropWhile_or (fun x => x = ' ') _ c h2 with h3 | h3
    · exact Or.inl (List.mem_reverse.mpr h3)
    · right
      simpa using h3
  · right
    simpa using h1

theorem mem_dropHexMarker_or (t : List Char) (c : Char) (h : c ∈ t) :
    c ∈ dropHexMarker t ∨ c = '0' ∨ c = 'x' ∨ c = 'X' := by
  unfold dropHexMarker
  split
  · simp only [List.mem_cons] at h
    tauto
  · simp only [List.mem_cons] at h
    tauto
  · exact Or.inl h

theorem pyIntDec_chars (l : List Char) (v : Nat) (h : pyIntDec l = some v) :
    ∀ c ∈ l, c ∈ (' ' :: decDigits) := by
  intro c hc
  have hcond : stripSp l ≠ [] ∧ (stripSp l).all (fun c => c ∈ decDigits) := by
    by_contra hn
    rw [pyIntDec, if_neg hn] at h
    exact Option.noConfusion h
  rcases mem_stripSp_or l c hc with h1 | h1
  · have hall := hcond.2
    simp only [List.all_eq_true] at hall
    have := hall c h1
    exact List.mem_cons_of_mem _ (by simpa using this)
  · rw [h1]
    exact List.mem_cons_self _ _

theorem pyIntHex_chars (l : List Char) (v : Nat) (h : pyIntHex l = some v) :
    ∀ c ∈ l, c ∈ (' ' :: 'x' :: 'X' :: hexDigits) := by
  intro c hc
  have hcond : dropHexMarker (stripSp l) ≠ [] ∧
      (dropHexMarker (stripSp l)).all (fun c => c ∈ hexDigits) := by
    by_contra hn
    rw [pyIntHex, if_neg hn] at h
    exact Option.noConfusion h
  rcases mem_stripSp_or l c hc with h1 | h1
  · rcases mem_dropHexMarker_or _ c h1 with h2 | h2
    · have hall := hcond.2
      simp only [List.all_eq_true] at hall
      have := hall c h2
      simp only [List.mem_cons]
      right; right; right
      simpa using this
    · simp only [List.mem_cons]
      rcases h2 with h2 | h2 | h2
      · right; right; right
        rw [h2]
        decide
      · right; left; exact h2
      · right; right; left; exact h2
  · rw [h1]
    exact List.mem_cons_self _ _

theorem decChar_lower_ne :
    ∀ c ∈ (' ' :: decDigits), ¬ (Char.toLower c = 'r' ∨ Char.toLower c = 's') := by
  decide

theorem hexChar_lower_ne :
    ∀ c ∈ (' ' :: 'x' :: 'X' :: hexDigits),
      ¬ (Char.toLower c = 'r' ∨ Char.toLower c = 's') := by
  decide

theorem pyLower_ne_keyword (t kw allowed : List Char)
    (hchars : ∀ c ∈ t, c ∈ allowed)
    (hallowed : ∀ c ∈ allowed, ¬ (Char.toLower c = 'r' ∨ Char.toLower c = 's'))
    (hk : kw.head? = some 'r' ∨ kw.head? = some 's') :
    pyLower t ≠ kw := by
  intro heq
  rcases t with _ | ⟨c, cs⟩
  · rw [pyLower, List.map_nil] at heq
    rcases hk with hk | hk <;> (rw [← heq] at hk; simp at hk)
  · rw [pyLower, List.map_cons] at heq
    have hh : kw.head? = some (Char.toLower c) := by
      rw [← heq]
      rfl
    have hca := hallowed c (hchars c (List.mem_cons_self c cs))
    rcases hk with hk | hk
    · rw [hk] at hh
      exact hca (Or.inl (Option.some.inj hh).symm)
    · rw [hk] at hh
      exact hca (Or.inr (Option.some.inj hh).symm)

theorem mapM_mem_some (f : List Char → Option Nat) :
    ∀ (l : List (List Char)) (vs : List Nat),
    l.mapM f = some vs → ∀ a ∈ l, ∃ v, f a = some v := by
  intro l
  induction l with
  | nil =>
    intro vs _ a ha
    simp at ha
  | cons x xs ih =>
    intro vs h a ha
    rw [List.mapM_cons] at h
    rcases hx : f x with _ | y
    · rw [hx] at h
      simp at h
    · rw [hx] at h
      simp only [Option.bind_eq_bind, Option.some_bind] at h
      rcases hxs : xs.mapM f with _ | ys
      · rw [hxs] at h
        simp at h
      · rcases List.mem_cons.mp ha with rfl | hmem
        · exact ⟨y, hx⟩
        · exact ih ys hxs a hmem

theorem pySplit_no_comma (l : List Char) (h : ',' ∉ l) : pySplit l = [l] := by
  induction l with
  | nil => rfl
  | cons c rest ih =>
    simp only [pySplit]
    have hc : ¬ c = ',' := fun hc => h (by rw [hc]; exact List.mem_cons_self _ _)
    rw [if_neg hc]
    have hr : ',' ∉ rest := fun hm => h (List.mem_cons_of_mem _ hm)
    rw [ih hr]

/-- C6: every client line of exactly six comma-separated integer tokens — each
parsing in base 16 when the whole line starts with `0x`, in base 10 otherwise —
with all six values fitting a byte, sets the pending command to `bytearray` (the
raw passthrough) and writes exactly the six decoded byte values to serial. -/
theorem C6_raw_passthrough (s : SerialToNet) (data : List Char) (vs : List Nat)
    (h6 : (pySplit (stripCRLF data)).length = 6)
    (hp : (if startsWith0x (stripCRLF data) then
            (pySplit (stripCRLF data)).mapM pyIntHex
          else (pySplit (stripCRLF data)).mapM pyIntDec) = some vs)
    (hb : vs.all (fun v => v < 256) = true) :
    handle_client_text s data =
      ({ s with cmd_sent := some "bytearray" }, .serialWrite vs) := by
  have hcomma : ',' ∈ stripCRLF data := by
    by_contra hn
    rw [pySplit_no_comma _ hn] at h6
    simp at h6
  have hnexit : ¬ pyLower (stripCRLF data) = "exit".toList := by
    intro hexit
    have hmm : ',' ∈ pyLower (stripCRLF data) :=
      List.mem_map.mpr ⟨',', hcomma, by decide⟩
    rw [hexit] at hmm
    revert hmm
    decide
  obtain ⟨t0, ts, ht0⟩ := List.exists_cons_of_ne_nil (pySplit_ne_nil (stripCRLF data))
  have ht0mem : t0 ∈ pySplit (stripCRLF data) := by
    rw [ht0]
    exact List.mem_cons_self _ _
  have hheadD : (pySplit (stripCRLF data)).headD [] = t0 := by
    rw [ht0]
    rfl
  have hkey : ¬ pyLower t0 = "register".toList ∧ ¬ pyLower t0 = "states".toList := by
    by_cases h0x : startsWith0x (stripCRLF data)
    · rw [if_pos h0x] at hp
      obtain ⟨v, hv⟩ := mapM_mem_some pyIntHex _ vs hp t0 ht0mem
      have hchars := pyIntHex_chars t0 v hv
      exact ⟨pyLower_ne_keyword t0 _ _ hchars hexChar_lower_ne (Or.inl (by decide)),
             pyLower_ne_keyword t0 _ _ hchars hexChar_lower_ne (Or.inr (by decide))⟩
    · rw [if_neg h0x] at hp
      obtain ⟨v, hv⟩ := mapM_mem_some pyIntDec _ vs hp t0 ht0mem
      have hchars := pyIntDec_chars t0 v hv
      exact ⟨pyLower_ne_keyword t0 _ _ hchars decChar_lower_ne (Or.inl (by decide)),
             pyLower_ne_keyword t0 _ _ hchars decChar_lower_ne (Or.inr (by decide))⟩
  by_cases h0x : startsWith0x (stripCRLF data)
  · rw [if_pos h0x] at hp
    simp only [handle_client_text]
    rw [if_neg hnexit, hheadD]
    rw [if_neg hkey.1, if_neg hkey.2, if_pos h6, if_pos h0x]
    simp only [hp]
    rw [if_pos hb]
  · rw [if_neg h0x] at hp
    simp only [handle_client_text]
    rw [if_neg hnexit, hheadD]
    rw [if_neg hkey.1, if_neg hkey.2, if_pos h6]
    rw [if_neg h0x]
    simp only [hp]
    rw [if_pos hb]

theorem C6_raw_passthrough_witness :
    handle_client_text attachedInit ("1,2,3,4,5,6".toList) =
      ({ attachedInit with cmd_sent := some "bytearray" },
       .serialWrite [1, 2, 3, 4, 5, 6]) ∧
    handle_client_text attachedInit ("0x01,0x02,0x03,0x04,0x05,0x06".toList) =
      ({ attachedInit with cmd_sent := some "bytearray" },
       .serialWrite [1, 2, 3, 4, 5, 6]) :=
  ⟨C6_raw_passthrough attachedInit _ [1, 2, 3, 4, 5, 6] (by decide) (by decide) (by decide),
   C6_raw_passthrough attachedInit _ [1, 2, 3, 4, 5, 6] (by decide) (by decide) (by decide)⟩

end PyTaiseia
